import Mathlib

/-!
Verification development for the sol-stake-backend repository.

Shallow embedding of the repository's core logic:

* `calculateTrustScore` and the scoring job, from src/workers/scoringAllValidators.ts;
* `retryWithBackoff` and `fetchValidators`, from src/workers/fetchValidators.ts;
* `checkRateLimit`, from src/lib/rateLimit.ts;
* `setupRepeatableJobs`, from src/queues/scheduler.ts;
* `GraphQLCache.generateKey` / `get` / `set`, from src/lib/cache.ts.

Modelling conventions:

* JavaScript numbers are modelled as rationals (`ℚ`) and millisecond
  timestamps as integers (`ℤ`); none of the verified code paths depend on
  floating-point rounding.
* Asynchronous effects (awaited database and Redis calls) are modelled by
  explicit state passing.  The scoring worker runs its per-validator
  closures with `Promise.all` inside each batch; the closures only append
  rows and bump two counters, operations whose aggregate effect is
  order-insensitive, so the batch is linearised into a left fold.
* Fallible calls are modelled with `Except`/`Option`; a JS `try/catch`
  becomes a `match` on the `Except` value.  Calls that may fail because an
  external store is down take an explicit failure oracle.
-/

/-! ### Small helpers (substring test, ceiling division, batching) -/

/-- Decidable test that one character list starts with another; used to model
JavaScript's `String.prototype.includes`. -/
def charListPre : List Char → List Char → Bool
  | [], _ => true
  | _ :: _, [] => false
  | a :: as, b :: bs => a == b && charListPre as bs

/-- Decidable substring occurrence on character lists. -/
def charListSub (needle : List Char) : List Char → Bool
  | [] => needle.isEmpty
  | b :: bs => charListPre needle (b :: bs) || charListSub needle bs

/-- Model of JavaScript `hay.includes(needle)`. -/
def strIncludes (hay needle : String) : Bool :=
  charListSub needle.toList hay.toList

/-- ASCII lower-casing of one character (all the rate-limit match patterns
are ASCII), modelling `String.prototype.toLowerCase` per character. -/
def lowerChar (c : Char) : Char :=
  if 65 ≤ c.toNat ∧ c.toNat ≤ 90 then Char.ofNat (c.toNat + 32) else c

/-- Model of JavaScript `s.toLowerCase()` for ASCII strings. -/
def strLower (s : String) : String :=
  String.mk (s.toList.map lowerChar)

/-- Model of `Math.ceil(a / b)` for integer timestamps `a`, `b`: JavaScript divides
as (exact, here rational) numbers and takes the ceiling, as the rate limiter
does in `Math.ceil((resetTime - now) / 1000)`. -/
def mathCeilDiv (a b : Int) : Int :=
  ⌈(a : ℚ) / (b : ℚ)⌉

/-- Fuel-driven worker for `chunksOf`; the fuel is the list length, which
bounds the number of slices taken. -/
def chunksOfAux (n : Nat) : Nat → List α → List (List α)
  | 0, _ => []
  | _, [] => []
  | fuel + 1, l => l.take n :: chunksOfAux n fuel (l.drop n)

/-- Split a list into consecutive slices of length `n` (the last slice may be
shorter), modelling the `for (let i = 0; i < validators.length; i += batchSize)
{ const batch = validators.slice(i, i + batchSize); ... }` loop of
src/workers/scoringAllValidators.ts. -/
def chunksOf (n : Nat) (l : List α) : List (List α) :=
  chunksOfAux n l.length l

/-! ### Scoring engine — src/workers/scoringAllValidators.ts lines 15-23 -/

/-- JavaScript `Math.round`: round half toward positive infinity,
`Math.round x = ⌊x + 1/2⌋`. -/
def jsRound (q : ℚ) : ℚ := (⌊q + 1 / 2⌋ : ℤ)

/-- TrustScore v1 formula, from `calculateTrustScore` in
src/workers/scoringAllValidators.ts:

` const baselinePenalty = 5;`
` let score = uptime - (commission ?? baselinePenalty);`
` score = Math.max(0, Math.min(100, score));`
` return Math.round(score * 100) / 100;` -/
def calculateTrustScore (uptime : ℚ) (commission : Option ℚ) : ℚ :=
  let baselinePenalty : ℚ := 5
  let score := uptime - commission.getD baselinePenalty
  let clamped := max 0 (min 100 score)
  jsRound (clamped * 100) / 100

/-- Clamp to `[0, 100]`, written the way the spec states it ("Result clamped
to `[0, 100]`"). -/
def clampSpec (q : ℚ) : ℚ := min 100 (max 0 q)

/-- Round to 2 decimal places, written the way the spec states it. -/
def roundTo2Spec (q : ℚ) : ℚ := (⌊q * 100 + 1 / 2⌋ : ℤ) / 100

/-- The scoring formula exactly as the spec's words describe it:
`raw = uptime − (commission ?? baselinePenalty)` with `baselinePenalty = 5`,
clamped to `[0, 100]`, rounded to 2 decimal places.  Kept separate from
`calculateTrustScore` so the refinement between spec and code is a theorem,
not a definition. -/
def trustScoreSpec (uptime : ℚ) (commission : Option ℚ) : ℚ :=
  roundTo2Spec (clampSpec (uptime - commission.getD 5))

/-! ### Scoring job — src/workers/scoringAllValidators.ts lines 28-210

Data model from the Prisma schema reproduced in the repository's README
("model Validator/ScoringRun/TrustScore/AuditLog"): a `ScoringRun` row has
`status` (default "completed"), `validatorCount`, `successCount` and
`failCount` (all defaulting to 0).  `scoreAllValidatorsJob` creates the run
with only `runDate`, so every other column takes its schema default; the
`prisma.scoringRun.update` call that would write the final counts back is
commented out in the source. -/

structure Validator where
  id : Nat
  validatorPubkey : String
  uptime : Option ℚ
  commission : Option ℚ
  name : Option String

structure ScoringRun where
  id : Nat
  runDate : Int
  status : String
  validatorCount : Nat
  successCount : Nat
  failCount : Nat

structure TrustScore where
  validatorId : Nat
  score : ℚ
  scoringRunId : Nat

structure AuditLog where
  action : String
  errorMessage : String

structure ScoringDB where
  validators : List Validator
  scoringRuns : List ScoringRun
  trustScores : List TrustScore
  auditLogs : List AuditLog
  nextRunId : Nat

/-- Model of `prisma.scoringRun.create({ data: { runDate: new Date() } })`: only
`runDate` is supplied, every other column takes its schema default. -/
def ScoringRun.create (id : Nat) (now : Int) : ScoringRun :=
  { id := id, runDate := now, status := "completed",
    validatorCount := 0, successCount := 0, failCount := 0 }

/-- The TrustScore row written for one validator:
`prisma.trustScore.create({ data: { validatorId, score, scoringRunId } })`
with `score = calculateTrustScore(validator.uptime ?? 0, validator.commission)`. -/
def mkTrustScore (runId : Nat) (v : Validator) : TrustScore :=
  { validatorId := v.id,
    score := calculateTrustScore (v.uptime.getD 0) v.commission,
    scoringRunId := runId }

/-- One iteration of the per-validator closure in the batch loop.  The body
is wrapped in `try/catch`: on success the TrustScore row is inserted and
`successCount++`, on any throw (modelled by the oracle `failsFor`) nothing is
inserted and `failCount++`; the error never escapes the closure. -/
def scoreStep (runId : Nat) (failsFor : Validator → Bool)
    (acc : ScoringDB × Nat × Nat) (v : Validator) : ScoringDB × Nat × Nat :=
  match acc with
  | (db, s, f) =>
    if failsFor v then (db, s, f + 1)
    else ({ db with trustScores := db.trustScores ++ [mkTrustScore runId v] }, s + 1, f)

/-- Outcome of one `scoreAllValidatorsJob` execution: whether the returned
promise resolved or rejected, the id of the ScoringRun created at job start
(if any), and the final in-memory counters. -/
structure ScoreJobOutcome where
  result : Except String Unit
  runId : Option Nat
  successCount : Nat
  failCount : Nat

/-- Model of `scoreAllValidatorsJob` from src/workers/scoringAllValidators.ts:
read all validators; if none, return early; otherwise create a ScoringRun
(with only `runDate`), process the validators in batches of 50 through the
per-validator closure, and finish.  The commented-out
`prisma.scoringRun.update({ ... successCount, failCount })` block at lines
168-176 of the source is exactly that — commented out — so the function
performs no write to the run after creating it.  `failsFor` is the oracle
saying which per-validator closures throw. -/
def scoreAllValidatorsJob (failsFor : Validator → Bool) (now : Int)
    (db : ScoringDB) : ScoreJobOutcome × ScoringDB :=
  if db.validators.isEmpty then
    ({ result := Except.ok (), runId := none, successCount := 0, failCount := 0 }, db)
  else
    let run := ScoringRun.create db.nextRunId now
    let db1 := { db with scoringRuns := db.scoringRuns ++ [run],
                         nextRunId := db.nextRunId + 1 }
    let folded := (chunksOf 50 db.validators).foldl
      (fun acc batch => batch.foldl (scoreStep run.id failsFor) acc) (db1, 0, 0)
    ({ result := Except.ok (), runId := some run.id,
       successCount := folded.2.1, failCount := folded.2.2 }, folded.1)

/-! ### Fetch worker — src/workers/fetchValidators.ts

The two RPC endpoints are modelled as oracles `Nat → Except String _`
mapping the index of the call to its outcome (a validator list, or a thrown
error's message).  `retryWithBackoff` also returns the list of backoff
delays it slept, so the backoff schedule is part of the observable
behaviour. -/

/-- One raw vote account as returned by `connection.getVoteAccounts()`;
`epochCredits` entries are `(epoch, credits)` pairs (the source reads index
1, the credits column, of the last entry). -/
structure RawValidator where
  votePubkey : String
  nodePubkey : Option String
  commission : Option ℚ
  epochCredits : List (ℚ × ℚ)
  activatedStake : ℚ

/-- A validator row as persisted by the fetch worker's upsert. -/
structure ParsedValidator where
  voteAccount : String
  validatorPubkey : String
  commission : Option ℚ
  uptime : ℚ
  name : Option String

structure FetchDB where
  validators : List ParsedValidator
  auditLogs : List AuditLog

/-- Worker for `retryWithBackoff`.  In the source, `attempt` counts failures
so far and the loop rethrows once `attempt > retries`; here `baseAttempt` is
the index of the next call and `remaining` the number of retries still
allowed, so `remaining = retries - baseAttempt`.  After the failure of call
`baseAttempt` the loop sleeps `delayMs * 2 ^ ((baseAttempt + 1) - 1)` ms,
recorded in the returned delay list. -/
def retryGo (fn : Nat → Except String α) (delayMs : Int) (baseAttempt : Nat) :
    Nat → Except String α × List Int
  | 0 =>
    (match fn baseAttempt with
     | Except.ok a => (Except.ok a, [])
     | Except.error e => (Except.error e, []))
  | remaining + 1 =>
    (match fn baseAttempt with
     | Except.ok a => (Except.ok a, [])
     | Except.error _ =>
       let d := delayMs * 2 ^ baseAttempt
       let rest := retryGo fn delayMs (baseAttempt + 1) remaining
       (rest.1, d :: rest.2))

/-- Model of `retryWithBackoff(fn, retries = 2, delayMs = 1000)` from
src/workers/fetchValidators.ts lines 13-35: call `fn`; on failure sleep
`delayMs * 2^(attempt-1)` and try again, rethrowing the last error once
`attempt > retries` (so `retries + 1` calls in total). -/
def retryWithBackoff (fn : Nat → Except String α) (retries : Nat) (delayMs : Int) :
    Except String α × List Int :=
  retryGo fn delayMs 0 retries

/-- The rate-limit classification used by `fetchValidators`:
`err.message?.includes("429") || err.message?.toLowerCase().includes("rate limit")`. -/
def isRateLimitMsg (msg : String) : Bool :=
  strIncludes msg "429" || strIncludes (strLower msg) "rate limit"

/-- JavaScript `a || b` on an optional string (`v.nodePubkey || v.votePubkey`):
`undefined` and the empty string are falsy. -/
def jsOrStr (a : Option String) (b : String) : String :=
  match a with
  | none => b
  | some s => if s = "" then b else s

/-- The uptime estimation of the fetch loop:
`v.epochCredits.length > 0 ? lastEntry[1] / 100 : (v.activatedStake > 0 ? 1 : 0)`. -/
def rawUptime (v : RawValidator) : ℚ :=
  match v.epochCredits.getLast? with
  | some entry => entry.2 / 100
  | none => if 0 < v.activatedStake then 1 else 0

/-- Model of the zod schema `validatorSchema` from
src/schemas/validatorSchema.ts (the file the fetch worker imports; its
source is reproduced in the repository alongside src/lib/solanaClient.ts):

` voteAccount: z.string().min(1, "voteAccount required"),`
` validatorPubkey: z.string().min(1, "validatorPubkey required"),`
` commission: z.number().nullable(),`
` uptime: z.number(),`
` name: z.string().nullable().optional(),`

The only data-dependent checks are the two minimum string lengths: the
`ParsedValidator` record built by the loop is already of the right shape
(commission is number-or-null, uptime a number, name string-or-null-or-
absent), so those type checks always pass in the typed model. -/
def validatorSchemaCheck (p : ParsedValidator) : Bool :=
  decide (1 ≤ p.voteAccount.length) &&
  decide (1 ≤ p.validatorPubkey.length)

/-- The record built and parsed for one raw validator inside the upsert loop. -/
def parseRaw (v : RawValidator) : ParsedValidator :=
  { voteAccount := v.votePubkey,
    validatorPubkey := jsOrStr v.nodePubkey v.votePubkey,
    commission := v.commission,
    uptime := rawUptime v,
    name := none }

/-- Model of `prisma.validator.upsert({ where: { voteAccount }, update, create })`:
replace the row with the same `voteAccount`, or append a new one. -/
def upsertValidator (vs : List ParsedValidator) (p : ParsedValidator) :
    List ParsedValidator :=
  if vs.any (fun q => q.voteAccount == p.voteAccount) then
    vs.map (fun q => if q.voteAccount == p.voteAccount then p else q)
  else
    vs ++ [p]

/-- The per-record upsert loop with its per-item `try/catch`: a record whose
validation fails only bumps `failCount`; a valid record is upserted and bumps
`successCount`. -/
def processFetched (raws : List RawValidator) (db : FetchDB) :
    FetchDB × Nat × Nat :=
  raws.foldl
    (fun acc v =>
      match acc with
      | (db, s, f) =>
        let p := parseRaw v
        if validatorSchemaCheck p then
          ({ db with validators := upsertValidator db.validators p }, s + 1, f)
        else
          (db, s, f + 1))
    (db, 0, 0)

/-- Observable outcome of one `fetchValidators()` execution. -/
structure FetchOutcome where
  result : Except String Unit
  primaryDelays : List Int
  usedSecondary : Bool
  secondaryDelays : List Int
  successCount : Nat
  failCount : Nat

/-- Model of `fetchValidators` from src/workers/fetchValidators.ts lines 44-105:
fetch from the primary endpoint under `retryWithBackoff`; if the final
error is a rate-limit signal, fail over to the secondary endpoint under the
same policy, otherwise rethrow; upsert the fetched records with per-item
fault isolation.  The enclosing `try/catch` catches any error, writes a
`VALIDATOR_FETCH_FAILED` audit row and does not rethrow, so the returned
promise resolves either way. -/
def fetchValidators (primary secondary : Nat → Except String (List RawValidator))
    (db : FetchDB) : FetchOutcome × FetchDB :=
  let pr := retryWithBackoff primary 2 1000
  match pr.1 with
  | Except.ok raws =>
    let done := processFetched raws db
    ({ result := Except.ok (), primaryDelays := pr.2, usedSecondary := false,
       secondaryDelays := [], successCount := done.2.1, failCount := done.2.2 },
     done.1)
  | Except.error e =>
    if isRateLimitMsg e then
      let sr := retryWithBackoff secondary 2 1000
      match sr.1 with
      | Except.ok raws =>
        let done := processFetched raws db
        ({ result := Except.ok (), primaryDelays := pr.2, usedSecondary := true,
           secondaryDelays := sr.2, successCount := done.2.1,
           failCount := done.2.2 }, done.1)
      | Except.error e2 =>
        ({ result := Except.ok (), primaryDelays := pr.2, usedSecondary := true,
           secondaryDelays := sr.2, successCount := 0, failCount := 0 },
         { db with auditLogs := db.auditLogs ++ [⟨"VALIDATOR_FETCH_FAILED", e2⟩] })
    else
      ({ result := Except.ok (), primaryDelays := pr.2, usedSecondary := false,
         secondaryDelays := [], successCount := 0, failCount := 0 },
       { db with auditLogs := db.auditLogs ++ [⟨"VALIDATOR_FETCH_FAILED", e⟩] })

/-! ### Rate limiter — src/lib/rateLimit.ts lines 42-93

The Redis sorted set for one caller key is modelled as the list of member
scores (timestamps); members are unique in Redis because each `zadd` uses a
random member string, so two requests in the same millisecond are two list
entries.  The key's time-to-live (`redis.expire`) is modelled by
`expiresAt`: Redis treats a key whose expiry has passed as absent.  A store
outage is modelled by an optional failure point naming the Redis call that
throws; the `try/catch` of `checkRateLimit` catches it. -/

structure RateLimitConfig where
  windowMs : Int
  maxRequests : Int

/-- The `defaultConfig` of `RateLimiter`: 100 requests per 15 minutes. -/
def defaultRateLimitConfig : RateLimitConfig :=
  { windowMs := 15 * 60 * 1000, maxRequests := 100 }

structure RateLimitResult where
  allowed : Bool
  remaining : Int
  resetTime : Int
  retryAfter : Option Int

/-- The sorted-set state of one rate-limit key. -/
structure RLStore where
  entries : List Int
  expiresAt : Option Int

/-- Which Redis call of `checkRateLimit` throws, when the backing store
fails: the window count (`zrangebyscore`), the oldest-entry lookup
(`zrange`), the timestamp insert (`zadd`) or the expiry refresh (`expire`). -/
inductive RedisFailPoint where
  | atCount
  | atOldest
  | atAdd
  | atExpire
deriving DecidableEq

/-- A key whose expiry has passed is absent from Redis. -/
def pruneExpired (st : RLStore) (now : Int) : RLStore :=
  match st.expiresAt with
  | some e => if e ≤ now then { entries := [], expiresAt := none } else st
  | none => st

/-- The `catch` branch of `checkRateLimit`: on any Redis error, allow the
request (`allowed: true, remaining: maxRequests, resetTime: now + windowMs`). -/
def failOpenResult (cfg : RateLimitConfig) (now : Int) : RateLimitResult :=
  { allowed := true, remaining := cfg.maxRequests, resetTime := now + cfg.windowMs,
    retryAfter := none }

/-- Result of one `checkRateLimit` call: the returned value, the key's new
sorted-set state, and whether the `catch` branch ran. -/
structure CheckOutcome where
  res : RateLimitResult
  store : RLStore
  raised : Bool

/-- Model of `RateLimiter.checkRateLimit` from src/lib/rateLimit.ts lines 42-93 for
one caller key: count the entries with score in `[now - windowMs, +inf)`;
if the count reaches `maxRequests`, reject with `resetTime` computed from
the oldest entry and `retryAfter = Math.ceil((resetTime - now) / 1000)`;
otherwise record the new timestamp, refresh the key's expiry to
`Math.ceil(windowMs / 1000)` seconds and allow.  Any Redis error is caught
and the request is allowed. -/
def checkRateLimit (cfg : RateLimitConfig) (fail : Option RedisFailPoint)
    (st : RLStore) (now : Int) : CheckOutcome :=
  let windowStart := now - cfg.windowMs
  let st0 := pruneExpired st now
  if fail = some RedisFailPoint.atCount then
    { res := failOpenResult cfg now, store := st0, raised := true }
  else
    let currentCount : Int := (st0.entries.filter (fun ts => windowStart ≤ ts)).length
    if cfg.maxRequests ≤ currentCount then
      if fail = some RedisFailPoint.atOldest then
        { res := failOpenResult cfg now, store := st0, raised := true }
      else
        let resetTime := match st0.entries.min? with
          | some oldest => oldest + cfg.windowMs
          | none => now + cfg.windowMs
        { res := { allowed := false, remaining := 0, resetTime := resetTime,
                   retryAfter := some (mathCeilDiv (resetTime - now) 1000) },
          store := st0, raised := false }
    else
      if fail = some RedisFailPoint.atAdd then
        { res := failOpenResult cfg now, store := st0, raised := true }
      else
        let st1 := { st0 with entries := st0.entries ++ [now] }
        if fail = some RedisFailPoint.atExpire then
          { res := failOpenResult cfg now, store := st1, raised := true }
        else
          let st2 := { st1 with expiresAt := some (now + mathCeilDiv cfg.windowMs 1000 * 1000) }
          { res := { allowed := true, remaining := cfg.maxRequests - currentCount - 1,
                     resetTime := now + cfg.windowMs, retryAfter := none },
            store := st2, raised := false }

/-! ### Scheduler — src/queues/scheduler.ts lines 48-128

The queue's repeatable registrations are modelled as a list of descriptors
as returned by `getRepeatableJobs()`: each has the caller-visible `id` (the
`jobId` option) and the internal repeat `key` that `removeRepeatableByKey`
addresses. -/

structure RepeatableJob where
  id : String
  key : String
  every : Int

structure SchedulerConfig where
  mode : String
  fetchInterval : Int
  scoreInterval : Int

/-- The `TEST_CONFIG` preset: fetch every 30 s, score every 60 s. -/
def TEST_CONFIG : SchedulerConfig :=
  { mode := "test", fetchInterval := 30000, scoreInterval := 60000 }

/-- The `PRODUCTION_CONFIG` preset: fetch and score every 6 h. -/
def PRODUCTION_CONFIG : SchedulerConfig :=
  { mode := "production", fetchInterval := 6 * 60 * 60 * 1000,
    scoreInterval := 6 * 60 * 60 * 1000 }

/-- BullMQ's internal repeat key for a repeatable job added with a fixed
`jobId` and an `every` interval; distinct registrations get distinct keys. -/
def repeatKeyOf (jobName jobId : String) (every : Int) : String :=
  jobName ++ ":" ++ jobId ++ "::" ++ toString every

/-- The clearing loop of `setupRepeatableJobs`: iterate over the snapshot of
`getRepeatableJobs()`, and for every job whose id is `fetch-repeatable` or
`score-repeatable` call `removeRepeatableByKey(job.key)`, which deletes the
registrations with that key. -/
def removeTargetLoop : List RepeatableJob → List RepeatableJob → List RepeatableJob
  | [], st => st
  | j :: rest, st =>
    removeTargetLoop rest
      (if j.id = "fetch-repeatable" ∨ j.id = "score-repeatable" then
        st.filter (fun r => r.key ≠ j.key)
      else st)

/-- Model of `setupRepeatableJobs(config)` from src/queues/scheduler.ts: remove the
existing `fetch-repeatable` / `score-repeatable` registrations, then add one
repeatable fetch job and one repeatable score job. -/
def setupRepeatableJobs (cfg : SchedulerConfig) (st : List RepeatableJob) :
    List RepeatableJob :=
  let cleared := removeTargetLoop st st
  cleared ++
    [{ id := "fetch-repeatable",
       key := repeatKeyOf "fetch" "fetch-repeatable" cfg.fetchInterval,
       every := cfg.fetchInterval },
     { id := "score-repeatable",
       key := repeatKeyOf "score" "score-repeatable" cfg.scoreInterval,
       every := cfg.scoreInterval }]

/-! ### GraphQL response cache — src/lib/cache.ts

JSON-serializable JavaScript values are modelled by the inductive `Json`;
`JSON.stringify` is `Json.encode` (object fields keep insertion order, as in
JavaScript).  The SHA-256 digest inside `generateKey` is modelled by an
injective digest function (an ideal, collision-free hash), keeping the
key's structure `prefix ++ ":" ++ digest (query ++ stringify variables)`.
Redis stores the string `JSON.stringify(data)` under the key; since
`JSON.parse ∘ JSON.stringify` is the identity on serializable values and
`JSON.stringify` never returns the (falsy) empty string, the stored payload
is modelled as the `Json` value itself and `get`'s `if (cached)` test as
presence of a live entry. -/

inductive Json where
  | null : Json
  | bool (b : Bool) : Json
  | num (n : Int) : Json
  | str (s : String) : Json
  | arr (items : List Json) : Json
  | obj (fields : List (String × Json)) : Json

mutual

/-- Model of `JSON.stringify` on the modelled value universe. -/
def Json.encode : Json → String
  | Json.null => "null"
  | Json.bool b => if b then "true" else "false"
  | Json.num n => toString n
  | Json.str s => "\"" ++ s ++ "\""
  | Json.arr items => "[" ++ Json.encodeItems items ++ "]"
  | Json.obj fields => "\x7b" ++ Json.encodeFields fields ++ "\x7d"

def Json.encodeItems : List Json → String
  | [] => ""
  | [j] => Json.encode j
  | j :: rest => Json.encode j ++ "," ++ Json.encodeItems rest

def Json.encodeFields : List (String × Json) → String
  | [] => ""
  | [(k, v)] => "\"" ++ k ++ "\":" ++ Json.encode v
  | (k, v) :: rest => "\"" ++ k ++ "\":" ++ Json.encode v ++ "," ++ Json.encodeFields rest

end

/-- JavaScript truthiness of a JSON value: `null`, `false`, `0` and the
empty string are falsy. -/
def jsTruthy : Json → Bool
  | Json.null => false
  | Json.bool b => b
  | Json.num n => n != 0
  | Json.str s => s != ""
  | Json.arr _ => true
  | Json.obj _ => true

/-- Model of `variables || \x7b\x7d`: an omitted (`undefined`) or falsy `variables`
argument falls back to the empty object. -/
def jsOrEmptyObj : Option Json → Json
  | none => Json.obj []
  | some v => if jsTruthy v then v else Json.obj []

/-- The SHA-256 hex digest of `generateKey`, modelled as an injective digest
of its input (an ideal, collision-free hash; collision behaviour is outside
this model). -/
def sha256Hex (s : String) : String := s

/-- Model of `GraphQLCache.generateKey(query, variables)` from src/lib/cache.ts:
`createHash('sha256').update(query + JSON.stringify(variables || {}))` under
the fixed namespace `graphql`. -/
def GraphQLCache.generateKey (query : String) (vars : Option Json) : String :=
  "graphql" ++ ":" ++ sha256Hex (query ++ Json.encode (jsOrEmptyObj vars))

/-- One Redis string entry written by `setex`: value plus absolute expiry
time in ms. -/
structure CacheEntry where
  key : String
  value : Json
  expiresAt : Int

/-- The Redis keyspace used by the cache. -/
abbrev RedisKV : Type := List CacheEntry

/-- Model of `redis.setex(key, ttlSec, payload)`: replace any entry under `key` and
store the payload with expiry `now + ttlSec * 1000`. -/
def redisSetex (kv : RedisKV) (now : Int) (key : String) (ttlSec : Int)
    (value : Json) : RedisKV :=
  List.filter (fun e => e.key != key) kv ++ [{ key := key, value := value, expiresAt := now + ttlSec * 1000 }]

/-- Model of `redis.get(key)`: the stored payload, if the key exists and its expiry
has not passed. -/
def redisGet (kv : RedisKV) (now : Int) (key : String) : Option Json :=
  match List.find? (fun e => e.key == key) kv with
  | some e => if now < e.expiresAt then some e.value else none
  | none => none

/-- The `GraphQLCache.defaultTTL` value (seconds). -/
def graphQLCacheDefaultTTL : Int := 300

/-- Model of `options?.ttl || this.defaultTTL`: an absent or falsy (0) ttl option
falls back to the default of 300 s. -/
def effectiveTTL : Option Int → Int
  | none => graphQLCacheDefaultTTL
  | some t => if t = 0 then graphQLCacheDefaultTTL else t

/-- Model of `GraphQLCache.set(query, data, variables, options)` from
src/lib/cache.ts lines 105-119: store the serialized data under the derived
key with `setex`. -/
def GraphQLCache.set (kv : RedisKV) (now : Int) (query : String) (data : Json)
    (vars : Option Json) (ttlOpt : Option Int) : RedisKV :=
  redisSetex kv now (GraphQLCache.generateKey query vars) (effectiveTTL ttlOpt) data

/-- Model of `GraphQLCache.get(query, variables)` from src/lib/cache.ts lines 86-100:
look the derived key up; a missing or expired entry is a miss (`null`). -/
def GraphQLCache.get (kv : RedisKV) (now : Int) (query : String)
    (vars : Option Json) : Option Json :=
  redisGet kv now (GraphQLCache.generateKey query vars)

/-! ### Concrete example inputs used by closed theorems and witnesses -/

/-- A database holding one validator with uptime 98 and no commission. -/
def oneValidatorDB : ScoringDB :=
  { validators := [{ id := 1, validatorPubkey := "validator-pubkey-1",
                     uptime := some 98, commission := none, name := none }],
    scoringRuns := [], trustScores := [], auditLogs := [], nextRunId := 1 }

/-- A database holding 50 distinct validators. -/
def fiftyValidatorDB : ScoringDB :=
  { validators := (List.range 50).map
      (fun i => { id := i, validatorPubkey := "pk", uptime := some 90,
                  commission := some 10, name := none }),
    scoringRuns := [], trustScores := [], auditLogs := [], nextRunId := 1 }

/-- A per-validator failure oracle that throws exactly for validator 7. -/
def failsOnSeven (v : Validator) : Bool := v.id == 7

/-! ### Helper lemmas -/

theorem countP_not_add_countP (p : α → Bool) (l : List α) :
    l.countP (fun a => !p a) + l.countP p = l.length := by
  induction l with
  | nil => rfl
  | cons a rest ih =>
    cases h : p a <;> simp [List.countP_cons, h] <;> omega

theorem chunksOfAux_flatten (n : Nat) :
    ∀ (fuel : Nat) (l : List α), l.length ≤ fuel → 0 < n →
      (chunksOfAux n fuel l).flatten = l := by
  intro fuel
  induction fuel with
  | zero =>
    intro l hl _
    have : l = [] := List.length_eq_zero.mp (Nat.le_zero.mp hl)
    subst this
    rfl
  | succ fuel ih =>
    intro l hl hn
    cases l with
    | nil => rfl
    | cons a tl =>
      have hdrop : (List.drop n (a :: tl)).length ≤ fuel := by
        simp only [List.length_drop, List.length_cons] at *
        omega
      simp only [chunksOfAux, List.flatten_cons, ih (List.drop n (a :: tl)) hdrop hn,
        List.take_append_drop]

theorem chunksOf_flatten (n : Nat) (l : List α) (hn : 0 < n) :
    (chunksOf n l).flatten = l :=
  chunksOfAux_flatten n l.length l le_rfl hn

theorem scoreStep_foldl (runId : Nat) (failsFor : Validator → Bool) :
    ∀ (vs : List Validator) (db : ScoringDB) (s f : Nat),
      vs.foldl (scoreStep runId failsFor) (db, s, f) =
        ({ db with trustScores :=
              db.trustScores ++ (vs.filter (fun v => !failsFor v)).map (mkTrustScore runId) },
         s + vs.countP (fun v => !failsFor v), f + vs.countP failsFor) := by
  intro vs
  induction vs with
  | nil => intro db s f; simp
  | cons v rest ih =>
    intro db s f
    cases hfv : failsFor v with
    | true =>
      have hstep : scoreStep runId failsFor (db, s, f) v = (db, s, f + 1) := by
        simp [scoreStep, hfv]
      rw [List.foldl_cons, hstep, ih]
      simp only [List.filter_cons, List.countP_cons, hfv, Bool.not_true,
        Bool.false_eq_true, if_false, eq_self_iff_true, if_true, Prod.mk.injEq]
      exact ⟨trivial, by omega, by omega⟩
    | false =>
      have hstep : scoreStep runId failsFor (db, s, f) v =
          ({ db with trustScores := db.trustScores ++ [mkTrustScore runId v] }, s + 1, f) := by
        simp [scoreStep, hfv]
      rw [List.foldl_cons, hstep, ih]
      simp only [List.filter_cons, List.countP_cons, hfv, Bool.not_false,
        eq_self_iff_true, if_true, Bool.false_eq_true, if_false, List.map_cons,
        List.append_assoc, List.singleton_append, Prod.mk.injEq]
      exact ⟨trivial, by omega, by omega⟩

/-- Closed form of one non-trivial `scoreAllValidatorsJob` execution. -/
theorem scoreAllValidatorsJob_eq (failsFor : Validator → Bool) (now : Int)
    (db : ScoringDB) (h : db.validators ≠ []) :
    scoreAllValidatorsJob failsFor now db =
      ({ result := Except.ok (), runId := some db.nextRunId,
         successCount := db.validators.countP (fun v => !failsFor v),
         failCount := db.validators.countP failsFor },
       { db with
           scoringRuns := db.scoringRuns ++ [ScoringRun.create db.nextRunId now],
           nextRunId := db.nextRunId + 1,
           trustScores := db.trustScores ++
             (db.validators.filter (fun v => !failsFor v)).map
               (mkTrustScore db.nextRunId) }) := by
  have hflat := chunksOf_flatten 50 db.validators (by omega)
  have hfold : ∀ (rid : Nat) (init : ScoringDB × Nat × Nat),
      (chunksOf 50 db.validators).foldl
        (fun acc batch => batch.foldl (scoreStep rid failsFor) acc) init =
      db.validators.foldl (scoreStep rid failsFor) init := by
    intro rid init
    rw [← List.foldl_flatten, hflat]
  have hne : db.validators.isEmpty = false := by
    cases hv : db.validators with
    | nil => exact absurd hv h
    | cons a tl => rfl
  have hid : (ScoringRun.create db.nextRunId now).id = db.nextRunId := rfl
  simp only [scoreAllValidatorsJob, hne, Bool.false_eq_true, if_false, hid, hfold,
    scoreStep_foldl, Nat.zero_add]

/-! ### Claim theorems -/

/-- Claim C2: for every uptime and commission (a number or null),
`calculateTrustScore(uptime, commission)` equals uptime minus the commission
(or the baseline penalty 5 when the commission is null), clamped into
`[0, 100]` and rounded to 2 decimal places; in particular
`calculateTrustScore(98, null) = 93.00`, `calculateTrustScore(50, 80) = 0`
and `calculateTrustScore(100, 0) = 100`. -/
theorem calculateTrustScore_matches_spec :
    (∀ (u : ℚ) (c : Option ℚ), calculateTrustScore u c = trustScoreSpec u c) ∧
    calculateTrustScore 98 none = 93 ∧
    calculateTrustScore 50 (some 80) = 0 ∧
    calculateTrustScore 100 (some 0) = 100 := by
  refine ⟨fun u c => ?_, ?_, ?_, ?_⟩
  · unfold calculateTrustScore trustScoreSpec clampSpec roundTo2Spec jsRound
    simp only [max_min_distrib_left]
    norm_num
  · unfold calculateTrustScore jsRound
    norm_num
  · unfold calculateTrustScore jsRound
    norm_num
  · unfold calculateTrustScore jsRound
    norm_num

/-- Claim C1 (code bug evidence): on a database with one validator and no
per-entity failures, the job's in-memory success count is 1, but the stored
ScoringRun row still carries the schema defaults — `successCount = 0`,
`failCount = 0`, `status = "completed"` from creation time — because the
`prisma.scoringRun.update` that would persist the final counts is commented
out in src/workers/scoringAllValidators.ts (lines 168-176). -/
theorem scoringRun_counts_not_persisted :
    (scoreAllValidatorsJob (fun _ => false) 0 oneValidatorDB).1.result = Except.ok () ∧
    (scoreAllValidatorsJob (fun _ => false) 0 oneValidatorDB).1.successCount = 1 ∧
    (scoreAllValidatorsJob (fun _ => false) 0 oneValidatorDB).2.scoringRuns.map
      ScoringRun.successCount = [0] ∧
    (scoreAllValidatorsJob (fun _ => false) 0 oneValidatorDB).2.scoringRuns.map
      ScoringRun.status = ["completed"] := by
  refine ⟨rfl, rfl, rfl, rfl⟩

/-- Claim C7: every TrustScore row created by one execution of
`scoreAllValidatorsJob` carries the id of the ScoringRun created at that
job's start (a run present in the resulting database), and the number of
TrustScore rows created is at most the number of validators read at job
start.  The run row is inserted before the batch loop starts and rows are
only ever appended, so the referenced run exists at each score's creation
time. -/
theorem trustScore_run_referential_integrity :
    ∀ (failsFor : Validator → Bool) (now : Int) (db : ScoringDB),
      ∃ ns : List TrustScore,
        (scoreAllValidatorsJob failsFor now db).2.trustScores = db.trustScores ++ ns ∧
        ns.length ≤ db.validators.length ∧
        ∀ ts ∈ ns,
          (scoreAllValidatorsJob failsFor now db).1.runId = some ts.scoringRunId ∧
          ts.scoringRunId ∈
            (scoreAllValidatorsJob failsFor now db).2.scoringRuns.map ScoringRun.id := by
  intro failsFor now db
  by_cases h : db.validators = []
  · refine ⟨[], ?_, ?_, ?_⟩ <;>
      simp [scoreAllValidatorsJob, h]
  · rw [scoreAllValidatorsJob_eq failsFor now db h]
    refine ⟨(db.validators.filter (fun v => !failsFor v)).map (mkTrustScore db.nextRunId),
      rfl, ?_, ?_⟩
    · calc ((db.validators.filter (fun v => !failsFor v)).map
            (mkTrustScore db.nextRunId)).length
          = (db.validators.filter (fun v => !failsFor v)).length := List.length_map _ _
        _ ≤ db.validators.length := List.length_filter_le _ _
    · intro ts hts
      rcases List.mem_map.mp hts with ⟨v, _, rfl⟩
      refine ⟨rfl, ?_⟩
      simp [mkTrustScore, ScoringRun.create]

/-- Claim C7 witness: the integrity statement evaluated on a concrete
database of 50 validators with one failing entity. -/
theorem trustScore_run_referential_integrity_witness :
    ∃ ns : List TrustScore,
      (scoreAllValidatorsJob failsOnSeven 0 fiftyValidatorDB).2.trustScores =
        fiftyValidatorDB.trustScores ++ ns ∧
      ns.length ≤ fiftyValidatorDB.validators.length ∧
      ∀ ts ∈ ns,
        (scoreAllValidatorsJob failsOnSeven 0 fiftyValidatorDB).1.runId =
          some ts.scoringRunId ∧
        ts.scoringRunId ∈
          (scoreAllValidatorsJob failsOnSeven 0 fiftyValidatorDB).2.scoringRuns.map
            ScoringRun.id :=
  trustScore_run_referential_integrity failsOnSeven 0 fiftyValidatorDB

/-- Claim C8: a per-entity failure during score computation or persistence
only increments the failure counter and never aborts the run: the job always
resolves and its failure count equals the number of failing entities; in
particular, with 50 validators of which exactly one fails, the job resolves
with `successCount = 49` and `failCount = 1`. -/
theorem scoreJob_batch_fault_isolation :
    ∀ (failsFor : Validator → Bool) (now : Int) (db : ScoringDB),
      ((scoreAllValidatorsJob failsFor now db).1.result = Except.ok () ∧
       (scoreAllValidatorsJob failsFor now db).1.failCount =
         db.validators.countP failsFor) ∧
      (db.validators.length = 50 → db.validators.countP failsFor = 1 →
        (scoreAllValidatorsJob failsFor now db).1.result = Except.ok () ∧
        (scoreAllValidatorsJob failsFor now db).1.successCount = 49 ∧
        (scoreAllValidatorsJob failsFor now db).1.failCount = 1) := by
  intro failsFor now db
  by_cases h : db.validators = []
  · constructor
    · constructor <;> simp [scoreAllValidatorsJob, h]
    · intro h50
      rw [h] at h50
      exact absurd h50 (by simp)
  · rw [scoreAllValidatorsJob_eq failsFor now db h]
    refine ⟨⟨rfl, rfl⟩, fun h50 h1 => ⟨rfl, ?_, h1⟩⟩
    have := countP_not_add_countP failsFor db.validators
    simp only []
    omega

/-- Claim C8 witness: 50 concrete validators, exactly one of which fails. -/
theorem scoreJob_batch_fault_isolation_witness :
    (scoreAllValidatorsJob failsOnSeven 0 fiftyValidatorDB).1.result = Except.ok () ∧
    (scoreAllValidatorsJob failsOnSeven 0 fiftyValidatorDB).1.successCount = 49 ∧
    (scoreAllValidatorsJob failsOnSeven 0 fiftyValidatorDB).1.failCount = 1 :=
  (scoreJob_batch_fault_isolation failsOnSeven 0 fiftyValidatorDB).2
    (by decide) (by decide)

/-- Every job surviving the clearing loop was already registered, and its
key differs from the key of every targeted (fetch/score-repeatable) job of
the snapshot. -/
theorem removeTargetLoop_mem :
    ∀ (snap st : List RepeatableJob) (r : RepeatableJob),
      r ∈ removeTargetLoop snap st →
      r ∈ st ∧ ∀ j ∈ snap,
        (j.id = "fetch-repeatable" ∨ j.id = "score-repeatable") → r.key ≠ j.key := by
  intro snap
  induction snap with
  | nil =>
    intro st r hr
    exact ⟨hr, by simp⟩
  | cons j rest ih =>
    intro st r hr
    by_cases hj : j.id = "fetch-repeatable" ∨ j.id = "score-repeatable"
    · have hr' : r ∈ removeTargetLoop rest (st.filter (fun x => x.key ≠ j.key)) := by
        simpa [removeTargetLoop, hj] using hr
      obtain ⟨hmem, hrest⟩ := ih _ r hr'
      have hmem' := List.mem_filter.mp hmem
      refine ⟨hmem'.1, ?_⟩
      intro j' hj' htarget
      rcases List.mem_cons.mp hj' with rfl | hin
      · exact of_decide_eq_true hmem'.2
      · exact hrest j' hin htarget
    · have hr' : r ∈ removeTargetLoop rest st := by
        simpa [removeTargetLoop, hj] using hr
      obtain ⟨hmem, hrest⟩ := ih _ r hr'
      refine ⟨hmem, ?_⟩
      intro j' hj' htarget
      rcases List.mem_cons.mp hj' with rfl | hin
      · exact absurd htarget hj
      · exact hrest j' hin htarget

/-- After the clearing loop of `setupRepeatableJobs`, no registration under
either targeted identifier remains. -/
theorem removeTargetLoop_countP_zero (st : List RepeatableJob) (tid : String)
    (htid : tid = "fetch-repeatable" ∨ tid = "score-repeatable") :
    (removeTargetLoop st st).countP (fun r => r.id == tid) = 0 := by
  rw [List.countP_eq_zero]
  intro r hr
  obtain ⟨hmem, hkeys⟩ := removeTargetLoop_mem st st r hr
  simp only [beq_iff_eq, decide_eq_true_eq]
  intro heq
  exact hkeys r hmem (by rw [heq]; exact htid) rfl

/-- One `setupRepeatableJobs` call leaves exactly one registration per
targeted identifier, whatever the starting state. -/
theorem setupRepeatableJobs_single (s : List RepeatableJob) (cfg : SchedulerConfig) :
    (setupRepeatableJobs cfg s).countP (fun r => r.id == "fetch-repeatable") = 1 ∧
    (setupRepeatableJobs cfg s).countP (fun r => r.id == "score-repeatable") = 1 := by
  have hfs : (("fetch-repeatable" : String) == "score-repeatable") = false := by decide
  have hsf : (("score-repeatable" : String) == "fetch-repeatable") = false := by decide
  have h0f := removeTargetLoop_countP_zero s "fetch-repeatable" (Or.inl rfl)
  have h0s := removeTargetLoop_countP_zero s "score-repeatable" (Or.inr rfl)
  unfold setupRepeatableJobs
  rw [List.countP_append, List.countP_append, h0f, h0s]
  simp [List.countP_cons, hfs, hsf]

/-- Claim C5: calling `setupRepeatableJobs` twice in a row (with any
presets) leaves exactly one active repeatable registration per job type —
one under `fetch-repeatable` and one under `score-repeatable` — no matter
how many registrations under those identifiers existed beforehand. -/
theorem setupRepeatableJobs_idempotent :
    ∀ (st : List RepeatableJob) (cfg₁ cfg₂ : SchedulerConfig),
      ((setupRepeatableJobs cfg₂ (setupRepeatableJobs cfg₁ st)).countP
          (fun r => r.id == "fetch-repeatable") = 1) ∧
      ((setupRepeatableJobs cfg₂ (setupRepeatableJobs cfg₁ st)).countP
          (fun r => r.id == "score-repeatable") = 1) :=
  fun st cfg₁ cfg₂ => setupRepeatableJobs_single (setupRepeatableJobs cfg₁ st) cfg₂

/-- Appending to a string on the left is cancellable. -/
theorem strAppend_cancel_left (a b c : String) (h : a ++ b = a ++ c) : b = c := by
  have hd : a.data ++ b.data = a.data ++ c.data := by
    rw [← String.data_append, ← String.data_append, h]
  have hbc := List.append_cancel_left hd
  exact congrArg String.mk hbc

/-- A `find?` by key cannot hit a list from which that key was filtered out. -/
theorem cacheFind_filter_ne (kv : RedisKV) (k : String) :
    List.find? (fun e => e.key == k) (List.filter (fun e => e.key != k) kv) = none := by
  induction kv with
  | nil => rfl
  | cons e rest ih =>
    by_cases h : e.key = k
    · simp only [List.filter_cons, h, bne_self_eq_false, Bool.false_eq_true, if_false]
      exact ih
    · have hfil : List.filter (fun e => e.key != k) (e :: rest) =
          e :: List.filter (fun e => e.key != k) rest := by
        simp [List.filter_cons, bne, h]
      have hneg : ¬ ((fun e : CacheEntry => e.key == k) e = true) := by
        simp [h]
      have hstep : (e :: List.filter (fun e => e.key != k) rest).find?
            (fun e => e.key == k) =
          (List.filter (fun e => e.key != k) rest).find? (fun e => e.key == k) :=
        List.find?_cons_of_neg _ hneg
      rw [hfil, hstep]
      exact ih

/-- A `set` followed by a `get` whose derived key agrees hits the freshly
stored payload (default TTL, read at storage time). -/
theorem cache_get_set_hit (kv : RedisKV) (now : Int) (q : String) (data : Json)
    (v w : Option Json)
    (hkey : GraphQLCache.generateKey q w = GraphQLCache.generateKey q v) :
    GraphQLCache.get (GraphQLCache.set kv now q data v none) now q w = some data := by
  unfold GraphQLCache.get GraphQLCache.set redisGet redisSetex
  rw [hkey, List.find?_append, cacheFind_filter_ne]
  simp only [Option.none_or, List.find?_cons, beq_self_eq_true, if_pos,
    effectiveTTL, graphQLCacheDefaultTTL]
  rw [if_pos (by omega)]

/-- Distinct serializations of the variables yield distinct cache keys
(the digest is injective in this model). -/
theorem generateKey_ne_of_encode_ne (q : String) (v v' : Option Json)
    (h : Json.encode (jsOrEmptyObj v') ≠ Json.encode (jsOrEmptyObj v)) :
    GraphQLCache.generateKey q v' ≠ GraphQLCache.generateKey q v := by
  intro he
  unfold GraphQLCache.generateKey sha256Hex at he
  exact h (strAppend_cancel_left q _ _ (strAppend_cancel_left ("graphql" ++ ":") _ _ he))

/-- Claim C6: `set(q, data, v)` followed immediately by `get(q, v)` returns
`data` unchanged; a `get` under variables with a different serialization is
a miss; and once the entry's TTL (default 300 s) has expired, `get` is a
miss. -/
theorem graphQLCache_roundtrip :
    ∀ (kv : RedisKV) (now : Int) (q : String) (v : Option Json) (data : Json),
      GraphQLCache.get (GraphQLCache.set kv now q data v none) now q v = some data ∧
      (∀ v' : Option Json,
        Json.encode (jsOrEmptyObj v') ≠ Json.encode (jsOrEmptyObj v) →
          GraphQLCache.get (GraphQLCache.set [] now q data v none) now q v' = none) ∧
      (∀ t : Int, now + 300 * 1000 ≤ t →
          GraphQLCache.get (GraphQLCache.set kv now q data v none) t q v = none) := by
  intro kv now q v data
  refine ⟨cache_get_set_hit kv now q data v v rfl, ?_, ?_⟩
  · intro v' hne
    have hk : GraphQLCache.generateKey q v ≠ GraphQLCache.generateKey q v' :=
      (generateKey_ne_of_encode_ne q v v' hne).symm
    unfold GraphQLCache.get GraphQLCache.set redisGet redisSetex
    simp [List.find?_cons, beq_eq_false_iff_ne, hk]
  · intro t ht
    unfold GraphQLCache.get GraphQLCache.set redisGet redisSetex
    rw [List.find?_append, cacheFind_filter_ne]
    simp only [Option.none_or, List.find?_cons, beq_self_eq_true, if_pos,
      effectiveTTL, graphQLCacheDefaultTTL]
    rw [if_neg (by omega)]

/-- Claim C10: the cache key derived when the variables argument is omitted
equals the key derived for an explicit empty variables object, so `set`
without variables is read back by `get` with `\x7b\x7d` and vice versa: the
cache interface cannot distinguish absent from empty variables. -/
theorem generateKey_absent_vs_empty_variables :
    (∀ q : String,
      GraphQLCache.generateKey q none = GraphQLCache.generateKey q (some (Json.obj []))) ∧
    (∀ (kv : RedisKV) (now : Int) (q : String) (data : Json),
      GraphQLCache.get (GraphQLCache.set kv now q data none none) now q
        (some (Json.obj [])) = some data ∧
      GraphQLCache.get (GraphQLCache.set kv now q data (some (Json.obj [])) none) now q
        none = some data) := by
  have hk : ∀ q : String,
      GraphQLCache.generateKey q none = GraphQLCache.generateKey q (some (Json.obj [])) :=
    fun q => rfl
  refine ⟨hk, fun kv now q data => ?_⟩
  exact ⟨cache_get_set_hit kv now q data none (some (Json.obj [])) (hk q).symm,
         cache_get_set_hit kv now q data (some (Json.obj [])) none (hk q)⟩

/-- Claim C9: whenever the backing counter store raises during
`checkRateLimit` (whatever Redis call fails), the `catch` branch runs and
the call fails open — it returns `allowed = true` instead of raising, so a
store outage never blocks the request path. -/
theorem checkRateLimit_fails_open :
    ∀ (cfg : RateLimitConfig) (fail : Option RedisFailPoint) (st : RLStore) (now : Int),
      (checkRateLimit cfg fail st now).raised = true →
      (checkRateLimit cfg fail st now).res.allowed = true := by
  intro cfg fail st now
  have key : ∀ (c : Prop) (inst : Decidable c) (A B : CheckOutcome),
      (A.raised = true → A.res.allowed = true) →
      (B.raised = true → B.res.allowed = true) →
      ((@ite _ c inst A B).raised = true → (@ite _ c inst A B).res.allowed = true) := by
    intro c inst A B hA hB h
    by_cases hc : c
    · rw [if_pos hc] at h ⊢
      exact hA h
    · rw [if_neg hc] at h ⊢
      exact hB h
  unfold checkRateLimit
  split_ifs <;>
    first
      | exact fun _ => rfl
      | exact key _ _ _ _ (fun _ => rfl) (fun _ => rfl)
      | exact key _ _ _ _ (fun hh => nomatch hh) (fun _ => rfl)

/-- Claim C9 witness: a concrete call whose count query throws. -/
theorem checkRateLimit_fails_open_witness :
    (checkRateLimit defaultRateLimitConfig (some RedisFailPoint.atCount)
        { entries := [], expiresAt := none } 0).res.allowed = true :=
  checkRateLimit_fails_open defaultRateLimitConfig (some RedisFailPoint.atCount)
    { entries := [], expiresAt := none } 0 (by decide)

/-- One admitted `checkRateLimit` call, in closed form: key not expired, no
store failure, window count strictly below the limit. -/
theorem checkRateLimit_allow_eq (cfg : RateLimitConfig) (st : RLStore) (now : Int)
    (hexp : ∀ e, st.expiresAt = some e → now < e)
    (hcount : ((st.entries.filter (fun ts => now - cfg.windowMs ≤ ts)).length : Int) <
      cfg.maxRequests) :
    checkRateLimit cfg none st now =
      { res := { allowed := true,
                 remaining := cfg.maxRequests -
                   (st.entries.filter (fun ts => now - cfg.windowMs ≤ ts)).length - 1,
                 resetTime := now + cfg.windowMs, retryAfter := none },
        store := { entries := st.entries ++ [now],
                   expiresAt := some (now + mathCeilDiv cfg.windowMs 1000 * 1000) },
        raised := false } := by
  have hprune : pruneExpired st now = st := by
    rcases hst : st.expiresAt with _ | e
    · unfold pruneExpired
      rw [hst]
    · unfold pruneExpired
      rw [hst]
      show (if e ≤ now then ({ entries := [], expiresAt := none } : RLStore) else st) = st
      rw [if_neg (by have := hexp e hst; omega)]
  simp only [checkRateLimit, hprune]
  rw [if_neg (by simp), if_neg (not_le.mpr hcount), if_neg (by simp), if_neg (by simp)]

/-- One rejected `checkRateLimit` call, in closed form: key not expired, no
store failure, window count at the limit, oldest entry known. -/
theorem checkRateLimit_reject_eq (cfg : RateLimitConfig) (st : RLStore) (now o : Int)
    (hexp : ∀ e, st.expiresAt = some e → now < e)
    (hcount : cfg.maxRequests ≤
      ((st.entries.filter (fun ts => now - cfg.windowMs ≤ ts)).length : Int))
    (hmin : st.entries.min? = some o) :
    checkRateLimit cfg none st now =
      { res := { allowed := false, remaining := 0, resetTime := o + cfg.windowMs,
                 retryAfter := some (mathCeilDiv (o + cfg.windowMs - now) 1000) },
        store := st, raised := false } := by
  have hprune : pruneExpired st now = st := by
    rcases hst : st.expiresAt with _ | e
    · unfold pruneExpired
      rw [hst]
    · unfold pruneExpired
      rw [hst]
      show (if e ≤ now then ({ entries := [], expiresAt := none } : RLStore) else st) = st
      rw [if_neg (by have := hexp e hst; omega)]
  simp only [checkRateLimit, hprune, hmin]
  rw [if_neg (by simp), if_pos hcount, if_neg (by simp)]

/-- An admission after the key's expiry has passed: Redis dropped the key,
so the window restarts empty and the request is allowed. -/
theorem checkRateLimit_expired_allow (cfg : RateLimitConfig) (st : RLStore)
    (now e : Int) (he : st.expiresAt = some e) (hle : e ≤ now)
    (hmax : (0 : Int) < cfg.maxRequests) :
    (checkRateLimit cfg none st now).res.allowed = true := by
  have hprune : pruneExpired st now = { entries := [], expiresAt := none } := by
    unfold pruneExpired
    rw [he]
    show (if e ≤ now then ({ entries := [], expiresAt := none } : RLStore) else st) =
      { entries := [], expiresAt := none }
    rw [if_pos hle]
  simp only [checkRateLimit, hprune]
  rw [if_neg (by simp), if_neg (by simp [not_le]; omega), if_neg (by simp),
    if_neg (by simp)]

/-- Claim C4: with `maxRequests = 3` and `windowMs = 1000`, three requests
from one caller within the window are all admitted, the fourth inside the
same window is rejected with a positive `retryAfter`, and a request made
after the window has elapsed since the earlier requests is admitted again. -/
theorem checkRateLimit_window_behavior :
    ∀ (t₁ t₂ t₃ t₄ t₅ : Int),
      t₁ ≤ t₂ → t₂ ≤ t₃ → t₃ ≤ t₄ → t₄ < t₁ + 1000 → t₃ + 1000 < t₅ →
      let cfg : RateLimitConfig := { windowMs := 1000, maxRequests := 3 }
      let c₁ := checkRateLimit cfg none { entries := [], expiresAt := none } t₁
      let c₂ := checkRateLimit cfg none c₁.store t₂
      let c₃ := checkRateLimit cfg none c₂.store t₃
      let c₄ := checkRateLimit cfg none c₃.store t₄
      let c₅ := checkRateLimit cfg none c₄.store t₅
      c₁.res.allowed = true ∧ c₂.res.allowed = true ∧ c₃.res.allowed = true ∧
      c₄.res.allowed = false ∧ (∃ ra, c₄.res.retryAfter = some ra ∧ 0 < ra) ∧
      c₅.res.allowed = true := by
  intro t₁ t₂ t₃ t₄ t₅ h12 h23 h34 h41 h5
  have hm : mathCeilDiv (1000 : Int) 1000 * 1000 = 1000 := by
    show (⌈((1000 : Int) : ℚ) / ((1000 : Int) : ℚ)⌉ : Int) * 1000 = 1000
    norm_num
  -- first request: empty window, admitted
  have e₁ := checkRateLimit_allow_eq ⟨1000, 3⟩ { entries := [], expiresAt := none } t₁
    (fun e he => nomatch he) (by simp)
  have st₁ : (checkRateLimit ⟨1000, 3⟩ none { entries := [], expiresAt := none } t₁).store =
      { entries := [t₁], expiresAt := some (t₁ + 1000) } := by
    rw [e₁]
    simp [hm]
  have al₁ : (checkRateLimit ⟨1000, 3⟩ none { entries := [], expiresAt := none }
      t₁).res.allowed = true := by
    rw [e₁]
  -- second request
  have e₂ := checkRateLimit_allow_eq ⟨1000, 3⟩
    { entries := [t₁], expiresAt := some (t₁ + 1000) } t₂
    (by intro e he; simp at he; omega)
    (by
      have w : t₂ ≤ t₁ + 1000 := by omega
      simp [w])
  have st₂ : (checkRateLimit ⟨1000, 3⟩ none
      { entries := [t₁], expiresAt := some (t₁ + 1000) } t₂).store =
      { entries := [t₁, t₂], expiresAt := some (t₂ + 1000) } := by
    rw [e₂]
    simp [hm]
  have al₂ : (checkRateLimit ⟨1000, 3⟩ none
      { entries := [t₁], expiresAt := some (t₁ + 1000) } t₂).res.allowed = true := by
    rw [e₂]
  -- third request
  have e₃ := checkRateLimit_allow_eq ⟨1000, 3⟩
    { entries := [t₁, t₂], expiresAt := some (t₂ + 1000) } t₃
    (by intro e he; simp at he; omega)
    (by
      have w₁ : t₃ ≤ t₁ + 1000 := by omega
      have w₂ : t₃ ≤ t₂ + 1000 := by omega
      simp [w₁, w₂])
  have st₃ : (checkRateLimit ⟨1000, 3⟩ none
      { entries := [t₁, t₂], expiresAt := some (t₂ + 1000) } t₃).store =
      { entries := [t₁, t₂, t₃], expiresAt := some (t₃ + 1000) } := by
    rw [e₃]
    simp [hm]
  have al₃ : (checkRateLimit ⟨1000, 3⟩ none
      { entries := [t₁, t₂], expiresAt := some (t₂ + 1000) } t₃).res.allowed = true := by
    rw [e₃]
  -- fourth request: window full, rejected
  have hmin : ([t₁, t₂, t₃] : List Int).min? = some t₁ := by
    simp [List.min?, List.foldl]
    omega
  have e₄ := checkRateLimit_reject_eq ⟨1000, 3⟩
    { entries := [t₁, t₂, t₃], expiresAt := some (t₃ + 1000) } t₄ t₁
    (by intro e he; simp at he; omega)
    (by
      have w₁ : t₄ ≤ t₁ + 1000 := by omega
      have w₂ : t₄ ≤ t₂ + 1000 := by omega
      have w₃ : t₄ ≤ t₃ + 1000 := by omega
      simp [w₁, w₂, w₃])
    hmin
  have al₄ : (checkRateLimit ⟨1000, 3⟩ none
      { entries := [t₁, t₂, t₃], expiresAt := some (t₃ + 1000) } t₄).res.allowed =
      false := by
    rw [e₄]
  have ra₄ : (checkRateLimit ⟨1000, 3⟩ none
      { entries := [t₁, t₂, t₃], expiresAt := some (t₃ + 1000) } t₄).res.retryAfter =
      some (mathCeilDiv (t₁ + 1000 - t₄) 1000) := by
    rw [e₄]
  have st₄ : (checkRateLimit ⟨1000, 3⟩ none
      { entries := [t₁, t₂, t₃], expiresAt := some (t₃ + 1000) } t₄).store =
      { entries := [t₁, t₂, t₃], expiresAt := some (t₃ + 1000) } := by
    rw [e₄]
  have hra_pos : 0 < mathCeilDiv (t₁ + 1000 - t₄) 1000 := by
    show 0 < (⌈((t₁ + 1000 - t₄ : Int) : ℚ) / ((1000 : Int) : ℚ)⌉ : Int)
    rw [Int.ceil_pos]
    apply div_pos
    · exact_mod_cast (by omega : (0 : Int) < t₁ + 1000 - t₄)
    · norm_num
  -- fifth request: the key expired, the window restarts
  have al₅ := checkRateLimit_expired_allow ⟨1000, 3⟩
    { entries := [t₁, t₂, t₃], expiresAt := some (t₃ + 1000) } t₅ (t₃ + 1000)
    rfl (by omega) (by norm_num)
  dsimp only
  rw [st₁, st₂, st₃, st₄]
  exact ⟨al₁, al₂, al₃, al₄, ⟨mathCeilDiv (t₁ + 1000 - t₄) 1000, ra₄, hra_pos⟩, al₅⟩

/-- Claim C4 witness: the window scenario at concrete timestamps
2000, 2100, 2200, 2500 and 3300 ms. -/
theorem checkRateLimit_window_behavior_witness :
    let cfg : RateLimitConfig := { windowMs := 1000, maxRequests := 3 }
    let c₁ := checkRateLimit cfg none { entries := [], expiresAt := none } 2000
    let c₂ := checkRateLimit cfg none c₁.store 2100
    let c₃ := checkRateLimit cfg none c₂.store 2200
    let c₄ := checkRateLimit cfg none c₃.store 2500
    let c₅ := checkRateLimit cfg none c₄.store 3300
    c₁.res.allowed = true ∧ c₂.res.allowed = true ∧ c₃.res.allowed = true ∧
    c₄.res.allowed = false ∧ (∃ ra, c₄.res.retryAfter = some ra ∧ 0 < ra) ∧
    c₅.res.allowed = true :=
  checkRateLimit_window_behavior 2000 2100 2200 2500 3300 (by norm_num)
    (by norm_num) (by norm_num) (by norm_num) (by norm_num)

/-- Behaviour of `retryWithBackoff` with the default parameters (`retries = 2`,
`delayMs = 1000`) against a function whose three calls all fail: it sleeps
`1000·2⁰` and `1000·2¹` ms between the calls and rethrows the last error. -/
theorem retryWithBackoff_all_fail (fn : Nat → Except String α) (m₀ m₁ m₂ : String)
    (h0 : fn 0 = Except.error m₀) (h1 : fn 1 = Except.error m₁)
    (h2 : fn 2 = Except.error m₂) :
    retryWithBackoff fn 2 1000 = (Except.error m₂, [1000 * 2 ^ 0, 1000 * 2 ^ 1]) := by
  simp [retryWithBackoff, retryGo, h0, h1, h2]

/-- Claim C3 counterexample: with both endpoints permanently failing with a
non-rate-limit error, `fetchValidators` resolves successfully (the error is
caught, audited and swallowed) — the error does not propagate out of
`fetchValidators`, contradicting the claim that the fetch task itself ends
in failure. -/
theorem fetchValidators_error_not_propagated :
    (fetchValidators (fun _ => Except.error "ECONNREFUSED")
        (fun _ => Except.error "ECONNREFUSED")
        { validators := [], auditLogs := [] }).1.result = Except.ok () ∧
    (fetchValidators (fun _ => Except.error "ECONNREFUSED")
        (fun _ => Except.error "ECONNREFUSED")
        { validators := [], auditLogs := [] }).2.auditLogs =
      [{ action := "VALIDATOR_FETCH_FAILED", errorMessage := "ECONNREFUSED" }] := by
  constructor <;> rfl

/-- Claim C3 (as amended): when every primary call fails, the primary is
retried under exponential backoff (`1000·2^(attempt−1)` ms, retry cap 2);
if the final error carries a rate-limit signal the fetch fails over to the
secondary endpoint under the same retry policy, otherwise it does not touch
the secondary; and once retries are exhausted the error is caught inside
`fetchValidators`, recorded as a `VALIDATOR_FETCH_FAILED` audit row, and the
function resolves successfully — the error does not propagate to the
caller. -/
theorem fetchValidators_retry_failover_audit :
    ∀ (primary secondary : Nat → Except String (List RawValidator)) (db : FetchDB)
      (m₀ m₁ m₂ : String),
      primary 0 = Except.error m₀ → primary 1 = Except.error m₁ →
      primary 2 = Except.error m₂ →
      ((fetchValidators primary secondary db).1.primaryDelays =
          [1000 * 2 ^ 0, 1000 * 2 ^ 1] ∧
       (isRateLimitMsg m₂ = false →
         (fetchValidators primary secondary db).1.usedSecondary = false ∧
         (fetchValidators primary secondary db).1.result = Except.ok () ∧
         (fetchValidators primary secondary db).2.auditLogs =
           db.auditLogs ++ [{ action := "VALIDATOR_FETCH_FAILED", errorMessage := m₂ }]) ∧
       (isRateLimitMsg m₂ = true →
         (fetchValidators primary secondary db).1.usedSecondary = true ∧
         ∀ (k₀ k₁ k₂ : String),
           secondary 0 = Except.error k₀ → secondary 1 = Except.error k₁ →
           secondary 2 = Except.error k₂ →
           (fetchValidators primary secondary db).1.secondaryDelays =
             [1000 * 2 ^ 0, 1000 * 2 ^ 1] ∧
           (fetchValidators primary secondary db).1.result = Except.ok () ∧
           (fetchValidators primary secondary db).2.auditLogs =
             db.auditLogs ++
               [{ action := "VALIDATOR_FETCH_FAILED", errorMessage := k₂ }])) := by
  intro primary secondary db m₀ m₁ m₂ h0 h1 h2
  have hpr := retryWithBackoff_all_fail primary m₀ m₁ m₂ h0 h1 h2
  cases hrl : isRateLimitMsg m₂ with
  | false =>
    refine ⟨?_, fun _ => ⟨?_, ?_, ?_⟩, ?_⟩
    · simp [fetchValidators, hpr, hrl]
    · simp [fetchValidators, hpr, hrl]
    · simp [fetchValidators, hpr, hrl]
    · simp [fetchValidators, hpr, hrl]
    · intro htrue
      exact nomatch htrue
  | true =>
    rcases hsr : retryWithBackoff secondary 2 1000 with ⟨sres, sdel⟩
    refine ⟨?_, ?_, fun _ => ⟨?_, ?_⟩⟩
    · cases sres <;> simp [fetchValidators, hpr, hrl, hsr]
    · intro hfalse
      exact nomatch hfalse
    · cases sres <;> simp [fetchValidators, hpr, hrl, hsr]
    · intro k₀ k₁ k₂ hk0 hk1 hk2
      have hsec := retryWithBackoff_all_fail secondary k₀ k₁ k₂ hk0 hk1 hk2
      refine ⟨?_, ?_, ?_⟩ <;> simp [fetchValidators, hpr, hrl, hsec]

/-- Claim C3 witness: a primary endpoint that always answers with a 429
rate-limit error and a secondary endpoint that always fails with another
error, evaluated through the amended statement. -/
theorem fetchValidators_retry_failover_audit_witness :
    (fetchValidators (fun _ => Except.error "429") (fun _ => Except.error "boom")
        { validators := [], auditLogs := [] }).1.primaryDelays =
      [1000 * 2 ^ 0, 1000 * 2 ^ 1] ∧
    (isRateLimitMsg "429" = false →
      (fetchValidators (fun _ => Except.error "429") (fun _ => Except.error "boom")
          { validators := [], auditLogs := [] }).1.usedSecondary = false ∧
      (fetchValidators (fun _ => Except.error "429") (fun _ => Except.error "boom")
          { validators := [], auditLogs := [] }).1.result = Except.ok () ∧
      (fetchValidators (fun _ => Except.error "429") (fun _ => Except.error "boom")
          { validators := [], auditLogs := [] }).2.auditLogs =
        ({ validators := [], auditLogs := [] } : FetchDB).auditLogs ++
          [{ action := "VALIDATOR_FETCH_FAILED", errorMessage := "429" }]) ∧
    (isRateLimitMsg "429" = true →
      (fetchValidators (fun _ => Except.error "429") (fun _ => Except.error "boom")
          { validators := [], auditLogs := [] }).1.usedSecondary = true ∧
      ∀ (k₀ k₁ k₂ : String),
        (fun _ : Nat => Except.error (ε := String) (α := List RawValidator) "boom") 0 =
            Except.error k₀ →
        (fun _ : Nat => Except.error (ε := String) (α := List RawValidator) "boom") 1 =
            Except.error k₁ →
        (fun _ : Nat => Except.error (ε := String) (α := List RawValidator) "boom") 2 =
            Except.error k₂ →
        (fetchValidators (fun _ => Except.error "429") (fun _ => Except.error "boom")
            { validators := [], auditLogs := [] }).1.secondaryDelays =
          [1000 * 2 ^ 0, 1000 * 2 ^ 1] ∧
        (fetchValidators (fun _ => Except.error "429") (fun _ => Except.error "boom")
            { validators := [], auditLogs := [] }).1.result = Except.ok () ∧
        (fetchValidators (fun _ => Except.error "429") (fun _ => Except.error "boom")
            { validators := [], auditLogs := [] }).2.auditLogs =
          ({ validators := [], auditLogs := [] } : FetchDB).auditLogs ++
            [{ action := "VALIDATOR_FETCH_FAILED", errorMessage := k₂ }]) :=
  fetchValidators_retry_failover_audit (fun _ => Except.error "429")
    (fun _ => Except.error "boom") { validators := [], auditLogs := [] }
    "429" "429" "429" rfl rfl rfl
